import Mathlib

/-!
Verification development for the `votage.py` Telegram auto-responder and
reminder bot.  The two pieces of core logic — the time-string parser
`AutoResponderBot.parse_time` and the auto-response matcher
`AutoResponderBot.handle_message` — are embedded shallowly, together with
the command handlers for rules and reminders.

Modelling conventions:
* A `datetime` value is the number of microseconds since 1970-01-01 00:00:00
  (proleptic Gregorian, no timezone, matching naive CPython datetimes).
  CPython restricts datetimes to years 1..9999 and timedeltas to a magnitude
  of at most 999999999 days; operations that would leave those ranges raise
  `OverflowError`, which the model tracks explicitly because `parse_time`
  does not catch it.
* Character classes (`\d`, `\s`, `str.lower`, `str.strip`) are modelled at
  ASCII level, which covers every string the handlers and the spec exercise.
* The successive `datetime.now()` calls inside one handler are modelled as a
  single instant `now` passed as a parameter.
-/

/-- Microseconds per second. -/
def usPerSec : Int := 1000000

/-- Microseconds per minute. -/
def usPerMin : Int := 60000000

/-- Microseconds per hour. -/
def usPerHour : Int := 3600000000

/-- Microseconds per day. -/
def usPerDay : Int := 86400000000

/-- ASCII decimal digit test, the model of `\d` in the source's regexes. -/
def isDigitCh (c : Char) : Bool := 48 ≤ c.toNat && c.toNat ≤ 57

/-- ASCII whitespace test, the model of `\s` and of `str.strip`'s default set. -/
def isWsCh (c : Char) : Bool :=
  c.toNat = 32 || c.toNat = 9 || c.toNat = 10 || c.toNat = 13 || c.toNat = 11 || c.toNat = 12

/-- ASCII lower-casing of one character, the model of `str.lower`. -/
def lowerChar (c : Char) : Char :=
  if 65 ≤ c.toNat ∧ c.toNat ≤ 90 then Char.ofNat (c.toNat + 32) else c

/-- Lower-case a character list. -/
def lowerChars (cs : List Char) : List Char := cs.map lowerChar

/-- Strip leading and trailing whitespace, the model of `str.strip()`. -/
def stripChars (cs : List Char) : List Char :=
  ((cs.dropWhile isWsCh).reverse.dropWhile isWsCh).reverse

/-- Numeric value of an ASCII digit character. -/
def digitVal (c : Char) : Nat := c.toNat - 48

/-- Decimal value of a digit string, the model of Python `int` on `\d+`. -/
def digitsToNat (ds : List Char) : Nat := ds.foldl (fun a c => a * 10 + digitVal c) 0

/-- Gregorian leap-year test. -/
def isLeapYear (y : Int) : Bool := y % 4 = 0 && (¬ y % 100 = 0 || y % 400 = 0)

/-- Length of a month, used by the `datetime` constructor's validity check. -/
def daysInMonth (y m : Int) : Int :=
  if m = 2 then (if isLeapYear y then 29 else 28)
  else if m = 4 ∨ m = 6 ∨ m = 9 ∨ m = 11 then 30
  else 31

/-- Day number (days since 1970-01-01) of a proleptic Gregorian civil date,
the standard days-from-civil computation. -/
def daysFromCivil (y m d : Int) : Int :=
  let y' := if m ≤ 2 then y - 1 else y
  let era := y' / 400
  let yoe := y' - era * 400
  let doy := (153 * (if 2 < m then m - 3 else m + 9) + 2) / 5 + (d - 1)
  let doe := yoe * 365 + yoe / 4 - yoe / 100 + doy
  era * 146097 + doe - 719468

/-- Smallest CPython datetime, 0001-01-01 00:00:00, in microseconds. -/
def dtMin : Int := daysFromCivil 1 1 1 * usPerDay

/-- Largest CPython datetime, 9999-12-31 23:59:59.999999, in microseconds. -/
def dtMax : Int := daysFromCivil 9999 12 31 * usPerDay + (usPerDay - 1)

/-- Smallest CPython timedelta (-999999999 days), in microseconds. -/
def tdLow : Int := -999999999 * usPerDay

/-- Largest CPython timedelta (999999999 days 23:59:59.999999), in microseconds. -/
def tdHigh : Int := 999999999 * usPerDay + (usPerDay - 1)

/-- Construction of a CPython `timedelta` from microseconds; `none` models the
`OverflowError` raised when the magnitude exceeds 999999999 days. -/
def mkTimedelta (x : Int) : Option Int := if tdLow ≤ x ∧ x ≤ tdHigh then some x else none

/-- CPython `datetime + timedelta`; `none` models the `OverflowError` raised
when the result leaves the supported year range 1..9999. -/
def addTimedelta (dt delta : Int) : Option Int :=
  if dtMin ≤ dt + delta ∧ dt + delta ≤ dtMax then some (dt + delta) else none

/-- Model of `datetime.replace(hour=h, minute=mi, second=s, microsecond=u)`:
keep the calendar day, rebuild the time of day. -/
def replaceTimeOfDay (dt h mi s u : Int) : Int :=
  dt - dt % usPerDay + h * usPerHour + mi * usPerMin + s * usPerSec + u

/-- Model of `datetime.replace(hour=h, minute=mi)`: keep the calendar day and
the sub-minute part, rebuild the hour and minute. -/
def replaceHM (dt h mi : Int) : Int :=
  dt - dt % usPerDay + h * usPerHour + mi * usPerMin + dt % usPerMin

/-- Alternatives for a one-or-two digit numeric field of `strptime` with value
range `lo..hi`.  The two-digit reading comes first, matching the order of the
alternatives in CPython's field regexes, and the remaining input accompanies
each alternative so that the caller can backtrack. -/
def num2 (lo hi : Nat) : List Char → List (Nat × List Char)
  | c1 :: c2 :: rest =>
    (if isDigitCh c1 && isDigitCh c2 then
      let v := digitVal c1 * 10 + digitVal c2
      if lo ≤ v ∧ v ≤ hi then [(v, rest)] else []
    else []) ++
    (if isDigitCh c1 then
      let v := digitVal c1
      if lo ≤ v ∧ v ≤ hi then [(v, c2 :: rest)] else []
    else [])
  | [c1] =>
    if isDigitCh c1 then
      let v := digitVal c1
      if lo ≤ v ∧ v ≤ hi then [(v, [])] else []
    else []
  | [] => []

/-- Exactly four digits, the `%Y` field of `strptime`. -/
def num4 : List Char → Option (Nat × List Char)
  | a :: b :: c :: d :: rest =>
    if isDigitCh a && isDigitCh b && isDigitCh c && isDigitCh d then
      some (digitVal a * 1000 + digitVal b * 100 + digitVal c * 10 + digitVal d, rest)
    else none
  | _ => none

/-- One-or-more whitespace characters, the reading of a literal space in a
`strptime` format string. -/
def skipSpace : List Char → Option (List Char)
  | c :: rest => if isWsCh c then some (rest.dropWhile isWsCh) else none
  | [] => none

/-- Model of `strptime(s, "%I%p").time().hour` on lower-cased input: a 12-hour
clock hour followed by `am`/`pm`, consuming the whole input. -/
def structIp (cs : List Char) : Option Nat :=
  (num2 1 12 cs).findSome? fun hh =>
    match hh.2 with
    | 'a' :: 'm' :: [] => some (if hh.1 = 12 then 0 else hh.1)
    | 'p' :: 'm' :: [] => some (if hh.1 = 12 then 12 else hh.1 + 12)
    | _ => none

/-- Model of `strptime(s, "%H:%M")`: hour and minute consuming the whole input. -/
def parseHMEnd (cs : List Char) : Option (Nat × Nat) :=
  (num2 0 23 cs).findSome? fun hh =>
    match hh.2 with
    | ':' :: r => (num2 0 59 r).findSome? fun mi =>
        if mi.2 = [] then some (hh.1, mi.1) else none
    | _ => none

/-- Model of the `%H:%M:%S` tail of `strptime`; the seconds field's regex
admits 0..61 (leap seconds), validity is checked later by the constructor. -/
def parseHMSEnd (cs : List Char) : Option (Nat × Nat × Nat) :=
  (num2 0 23 cs).findSome? fun hh =>
    match hh.2 with
    | ':' :: r => (num2 0 59 r).findSome? fun mi =>
        match mi.2 with
        | ':' :: r2 => (num2 0 61 r2).findSome? fun ss =>
            if ss.2 = [] then some (hh.1, mi.1, ss.1) else none
        | _ => none
    | _ => none

/-- Structural readings of a `%Y-%m-%d` date head with the input that remains
after each reading. -/
def dateYMD (cs : List Char) : List ((Nat × Nat × Nat) × List Char) :=
  match num4 cs with
  | some (y, '-' :: r1) =>
    (num2 1 12 r1).flatMap fun mo =>
      match mo.2 with
      | '-' :: r2 => (num2 1 31 r2).map fun da => ((y, mo.1, da.1), da.2)
      | _ => []
  | _ => []

/-- Structural readings of a `%d<sep>%m<sep>%Y` date head. -/
def dateDMY (sep : Char) (cs : List Char) : List ((Nat × Nat × Nat) × List Char) :=
  (num2 1 31 cs).flatMap fun da =>
    match da.2 with
    | c :: r1 =>
      if c = sep then
        (num2 1 12 r1).flatMap fun mo =>
          match mo.2 with
          | c2 :: r2 =>
            if c2 = sep then
              match num4 r2 with
              | some (y, rest) => [((y, mo.1, da.1), rest)]
              | none => []
            else []
          | [] => []
      else []
    | [] => []

/-- Model of the `datetime` constructor run by `strptime` on the matched
fields: rejects year 0, days beyond the month length and leap seconds (the
field regexes already bound the other components). -/
def mkDatetime (y mo da h mi s : Nat) : Option Int :=
  if 1 ≤ y ∧ y ≤ 9999 ∧ 1 ≤ da ∧ (da : Int) ≤ daysInMonth (y : Int) (mo : Int) ∧ s ≤ 59 then
    some (daysFromCivil (y : Int) (mo : Int) (da : Int) * usPerDay +
      (h : Int) * usPerHour + (mi : Int) * usPerMin + (s : Int) * usPerSec)
  else none

/-- First structural full match of `%Y-%m-%d %H:%M`. -/
def structYmdHM (cs : List Char) : Option (Nat × Nat × Nat × Nat × Nat) :=
  (dateYMD cs).findSome? fun d =>
    match skipSpace d.2 with
    | some r => (parseHMEnd r).map fun hm => (d.1.1, d.1.2.1, d.1.2.2, hm.1, hm.2)
    | none => none

/-- Model of `strptime(s, "%Y-%m-%d %H:%M")`. -/
def strpYmdHM (cs : List Char) : Option Int :=
  match structYmdHM cs with
  | some (y, mo, da, h, mi) => mkDatetime y mo da h mi 0
  | none => none

/-- First structural full match of `%Y-%m-%d %H:%M:%S`. -/
def structYmdHMS (cs : List Char) : Option (Nat × Nat × Nat × Nat × Nat × Nat) :=
  (dateYMD cs).findSome? fun d =>
    match skipSpace d.2 with
    | some r => (parseHMSEnd r).map fun hms => (d.1.1, d.1.2.1, d.1.2.2, hms.1, hms.2.1, hms.2.2)
    | none => none

/-- Model of `strptime(s, "%Y-%m-%d %H:%M:%S")`. -/
def strpYmdHMS (cs : List Char) : Option Int :=
  match structYmdHMS cs with
  | some (y, mo, da, h, mi, s) => mkDatetime y mo da h mi s
  | none => none

/-- First structural full match of `%d<sep>%m<sep>%Y %H:%M`. -/
def structDmyHM (sep : Char) (cs : List Char) : Option (Nat × Nat × Nat × Nat × Nat) :=
  (dateDMY sep cs).findSome? fun d =>
    match skipSpace d.2 with
    | some r => (parseHMEnd r).map fun hm => (d.1.1, d.1.2.1, d.1.2.2, hm.1, hm.2)
    | none => none

/-- Model of `strptime(s, "%d/%m/%Y %H:%M")`. -/
def strpDmySlashHM (cs : List Char) : Option Int :=
  match structDmyHM '/' cs with
  | some (y, mo, da, h, mi) => mkDatetime y mo da h mi 0
  | none => none

/-- Model of `strptime(s, "%d-%m-%Y %H:%M")`. -/
def strpDmyDashHM (cs : List Char) : Option Int :=
  match structDmyHM '-' cs with
  | some (y, mo, da, h, mi) => mkDatetime y mo da h mi 0
  | none => none

/-- The four absolute formats of `parse_time`, in the order the source tries
them. -/
def pyFormats : List (List Char → Option Int) :=
  [strpYmdHM, strpYmdHMS, strpDmySlashHM, strpDmyDashHM]

/-- Match of the relative-shorthand regex `^\d+[smhd]$`, yielding the numeric
count and the unit character. -/
def relMatch (cs : List Char) : Option (Nat × Char) :=
  match cs.getLast? with
  | some u =>
    let ds := cs.dropLast
    if (¬ ds = []) ∧ ds.all isDigitCh = true ∧ (u = 's' ∨ u = 'm' ∨ u = 'h' ∨ u = 'd') then
      some (digitsToNat ds, u)
    else none
  | none => none

/-- Microseconds per unit of the relative shorthand. -/
def unitMicros (u : Char) : Int :=
  if u = 's' then usPerSec
  else if u = 'm' then usPerMin
  else if u = 'h' then usPerHour
  else usPerDay

/-- Outcome of a Python call: a returned value, or an uncaught exception. -/
inductive PyResult (α : Type) where
  | ok : α → PyResult α
  | raised : PyResult α
deriving DecidableEq

/-- Embedding of `AutoResponderBot.parse_time`.  The input is lower-cased and
stripped; the relative shorthand is tried first (its `timedelta` construction
and `datetime` addition can raise, uncaught), then the `tomorrow` forms (the
two inner `strptime` calls are wrapped in bare `except` clauses), then the
four absolute formats each under `except ValueError`; `ok none` is the final
`return None`. -/
def parse_time (input : String) (now : Int) : PyResult (Option Int) :=
  let t := stripChars (lowerChars input.data)
  match relMatch t with
  | some (num, unit) =>
    match mkTimedelta ((num : Int) * unitMicros unit) with
    | none => .raised
    | some delta =>
      match addTimedelta now delta with
      | none => .raised
      | some r => .ok (some r)
  | none =>
    if List.isPrefixOf "tomorrow".data t then
      match addTimedelta (replaceTimeOfDay now 9 0 0 0) usPerDay with
      | none => .raised
      | some tm =>
        if 8 < t.length then
          let tp := stripChars (t.drop 9)
          match structIp tp with
          | some h => .ok (some (replaceHM tm (h : Int) 0))
          | none =>
            match parseHMEnd tp with
            | some hm => .ok (some (replaceHM tm (hm.1 : Int) (hm.2 : Int)))
            | none => .ok (some tm)
        else .ok (some tm)
    else
      .ok (pyFormats.findSome? fun f => f t)

example : parse_time "10s" 0 = .ok (some 10000000) := by decide
example : parse_time "5m" 0 = .ok (some 300000000) := by decide
example : parse_time "2h" 0 = .ok (some 7200000000) := by decide
example : parse_time "3d" 0 = .ok (some (3 * 86400000000)) := by decide
example : parse_time " 10S " 0 = .ok (some 10000000) := by decide
example : parse_time "tomorrow" 0 = .ok (some (86400000000 + 9 * 3600000000)) := by decide
example : parse_time "tomorrow 9am" 0 = .ok (some (86400000000 + 9 * 3600000000)) := by decide
example : parse_time "tomorrow 14:30" 0 =
    .ok (some (86400000000 + 14 * 3600000000 + 30 * 60000000)) := by decide
example : parse_time "tomorrow 12am" 0 = .ok (some 86400000000) := by decide
example : parse_time "tomorrowx" 0 = .ok (some (86400000000 + 9 * 3600000000)) := by decide
example : parse_time "2024-12-25 10:30" 0 =
    .ok (some (daysFromCivil 2024 12 25 * usPerDay + 10 * usPerHour + 30 * usPerMin)) := by decide
example : parse_time "2024-12-25 10:30:05" 0 =
    .ok (some (daysFromCivil 2024 12 25 * usPerDay + 10 * usPerHour + 30 * usPerMin +
      5 * usPerSec)) := by decide
example : parse_time "25/12/2024 10:30" 0 =
    .ok (some (daysFromCivil 2024 12 25 * usPerDay + 10 * usPerHour + 30 * usPerMin)) := by decide
example : parse_time "25-12-2024 10:30" 0 =
    .ok (some (daysFromCivil 2024 12 25 * usPerDay + 10 * usPerHour + 30 * usPerMin)) := by decide
example : parse_time "not-a-time" 0 = .ok none := by decide
example : parse_time "2024-02-30 10:30" 0 = .ok none := by decide
example : parse_time "1000000000d" 0 = .raised := by decide

/-- Data class `AutoResponse` of the source, one auto-reply rule. -/
structure AutoResponse where
  trigger : String
  response : String
  exact_match : Bool := false
  case_sensitive : Bool := false
  enabled : Bool := true
deriving DecidableEq

/-- Data class `Reminder` of the source; `datetime` is in microseconds. -/
structure Reminder where
  user_id : Int
  message : String
  datetime : Int
  recurring : Option String := none
  chat_id : Int
deriving DecidableEq

/-- The bot's mutable state: the per-user rule lists and the reminder list. -/
structure BotState where
  auto_responses : List (Int × List AutoResponse)
  reminders : List Reminder
deriving DecidableEq

/-- Model of `s1 in s2` on Python strings: substring containment. -/
def subOf (needle : List Char) : List Char → Bool
  | [] => needle.isEmpty
  | c :: t => needle.isPrefixOf (c :: t) || subOf needle t

/-- Substring containment on `String`. -/
def containsStr (needle hay : String) : Bool := subOf needle.data hay.data

/-- Lower-casing of a whole string, the model of `str.lower` on `String`. -/
def pyLower (s : String) : String := ⟨lowerChars s.data⟩

/-- Embedding of the matching loop of `AutoResponderBot.handle_message`:
walk the rule list, skip disabled rules, compare case-insensitively unless
`case_sensitive`, by equality if `exact_match` and by containment otherwise,
and stop at the first hit. -/
def handle_message : List AutoResponse → String → Option AutoResponse
  | [], _ => none
  | r :: rest, incoming =>
    if r.enabled = false then handle_message rest incoming
    else
      let trigger := if r.case_sensitive then r.trigger else pyLower r.trigger
      let check := if r.case_sensitive then incoming else pyLower incoming
      let m := if r.exact_match then check == trigger else containsStr trigger check
      if m then some r else handle_message rest incoming

/-- Modelled from the spec's matcher algorithm in section 4.2: the test one
enabled rule applies to an incoming text (normalise to lower case unless
`caseSensitive`; equality if `exactMatch`, else substring containment). -/
def specRuleMatches (r : AutoResponse) (incoming : String) : Bool :=
  let t := if r.case_sensitive then r.trigger else pyLower r.trigger
  let x := if r.case_sensitive then incoming else pyLower incoming
  if r.exact_match then x == t else containsStr t x

/-- Modelled from the spec's matcher contract: the first enabled matching
rule in list order, absence if none matches. -/
def specFirstMatch (rules : List AutoResponse) (incoming : String) : Option AutoResponse :=
  rules.find? fun r => r.enabled && specRuleMatches r incoming

/-- Rule list of one user, the model of `self.auto_responses.get(user_id, [])`. -/
def getResponses (st : BotState) (uid : Int) : List AutoResponse :=
  match st.auto_responses.lookup uid with
  | some l => l
  | none => []

/-- Store a user's rule list, the model of `self.auto_responses[user_id] = l`. -/
def setResponses (st : BotState) (uid : Int) (l : List AutoResponse) : BotState :=
  { st with auto_responses :=
      if st.auto_responses.any fun p => p.1 == uid then
        st.auto_responses.map fun p => if p.1 == uid then (uid, l) else p
      else st.auto_responses ++ [(uid, l)] }

/-- The message-handler entry point: the reply texts it sends for one
incoming message (the source replies with the matched rule's response and
breaks out of the loop). -/
def handle_update (st : BotState) (uid : Int) (text : String) : List String :=
  match handle_message (getResponses st uid) text with
  | some r => [r.response]
  | none => []

/-- Result of one command handler: the state it leaves behind, the replies it
sent, how many times it called `save_data`, the `(delay, reminder)` jobs it
handed to `job_queue.run_once`, and whether an exception escaped it. -/
structure CmdResult where
  state : BotState
  replies : List String
  saves : Nat
  jobs : List (Int × Reminder)
  raised : Bool
deriving DecidableEq

/-- Embedding of `AutoResponderBot._is_admin`: membership in the hard-coded
admin list, which the source leaves empty. -/
def admin_ids : List Int := []

/-- Admin check of the source: `user_id in admin_ids`. -/
def is_admin (user_id : Int) : Bool := admin_ids.contains user_id

/-- The fixed permission-denied reply of every restricted command. -/
def permDenied : String := "You do not have permission to use this command."

/-- Reply of a restricted command to a non-admin caller: fixed message, no
state change, no save, no job. -/
def permResult (st : BotState) : CmdResult := ⟨st, [permDenied], 0, [], false⟩

def provideMsg : String := "Please provide trigger and response separated by |"

def sepMsg : String := "Please separate trigger and response with |"

def bothRequiredMsg : String := "Both trigger and response must be provided"

def addedMsg : String := "Auto-response added!"

def addedExactMsg : String := "Exact-match auto-response added!"

/-- Model of `' '.join(args)`. -/
def joinSpace (args : List String) : String := " ".intercalate args

/-- Model of `text.split('|', 1)`: the characters before the first `|` and
the characters after it. -/
def splitBar : List Char → List Char × List Char
  | [] => ([], [])
  | c :: t =>
    if c = '|' then ([], t)
    else
      let p := splitBar t
      (c :: p.1, p.2)

/-- Body of `/addresponse` after the admin check: require arguments, a `|`
separator and non-empty stripped trigger and response, then append the rule
and persist. -/
def add_response_body (uid : Int) (args : List String) (st : BotState) : CmdResult :=
  if args = [] then ⟨st, [provideMsg], 0, [], false⟩
  else
    let text := joinSpace args
    if text.data.contains '|' = false then ⟨st, [sepMsg], 0, [], false⟩
    else
      let p := splitBar text.data
      let trigger : String := ⟨stripChars p.1⟩
      let response : String := ⟨stripChars p.2⟩
      if trigger = "" ∨ response = "" then ⟨st, [bothRequiredMsg], 0, [], false⟩
      else
        ⟨setResponses st uid (getResponses st uid ++ [{ trigger := trigger, response := response }]),
          [addedMsg], 1, [], false⟩

/-- Body of `/addresponse_exact` after the admin check: same as
`add_response_body` except that the rule is exact-match and the emptiness
check on the stripped trigger and response is absent. -/
def add_exact_response_body (uid : Int) (args : List String) (st : BotState) : CmdResult :=
  if args = [] then ⟨st, [provideMsg], 0, [], false⟩
  else
    let text := joinSpace args
    if text.data.contains '|' = false then ⟨st, [sepMsg], 0, [], false⟩
    else
      let p := splitBar text.data
      let trigger : String := ⟨stripChars p.1⟩
      let response : String := ⟨stripChars p.2⟩
      ⟨setResponses st uid (getResponses st uid ++
          [{ trigger := trigger, response := response, exact_match := true }]),
        [addedExactMsg], 1, [], false⟩

def noResponsesMsg : String := "You do not have any auto-responses set up."

def listHeaderMsg : String := "Your Auto-Responses:"

/-- Body of `/listresponses` after the admin check. -/
def list_responses_body (uid : Int) (st : BotState) : CmdResult :=
  if getResponses st uid = [] then ⟨st, [noResponsesMsg], 0, [], false⟩
  else ⟨st, [listHeaderMsg], 0, [], false⟩

def provideNumberMsg : String := "Please provide the response number"

def validNumberMsg : String := "Please provide a valid number"

def invalidNumberMsg : String := "Invalid response number"

def deletedMsg : String := "Deleted auto-response"

def toggledMsg : String := "Auto-response toggled"

/-- Body of `/deleteresponse` after the admin check. -/
def delete_response_body (uid : Int) (args : List String) (st : BotState) : CmdResult :=
  match args with
  | [] => ⟨st, [provideNumberMsg], 0, [], false⟩
  | a :: _ =>
    match a.toInt? with
    | none => ⟨st, [validNumberMsg], 0, [], false⟩
    | some n =>
      let rs := getResponses st uid
      if n < 1 ∨ (rs.length : Int) < n then ⟨st, [invalidNumberMsg], 0, [], false⟩
      else ⟨setResponses st uid (rs.eraseIdx (n - 1).toNat), [deletedMsg], 1, [], false⟩

/-- Body of `/toggleresponse` after the admin check. -/
def toggle_response_body (uid : Int) (args : List String) (st : BotState) : CmdResult :=
  match args with
  | [] => ⟨st, [provideNumberMsg], 0, [], false⟩
  | a :: _ =>
    match a.toInt? with
    | none => ⟨st, [validNumberMsg], 0, [], false⟩
    | some n =>
      let rs := getResponses st uid
      if n < 1 ∨ (rs.length : Int) < n then ⟨st, [invalidNumberMsg], 0, [], false⟩
      else
        let i := (n - 1).toNat
        let r := rs.getD i { trigger := "", response := "" }
        ⟨setResponses st uid (rs.set i { r with enabled := ¬ r.enabled }),
          [toggledMsg], 1, [], false⟩

def remindUsageMsg : String := "Usage: /remind <time> <message>"

def invalidTimeFormatMsg : String := "Invalid time format. Please check the examples in /admin"

def futureMsg : String := "Reminder time must be in the future"

def jqUnavailableMsg : String := "Reminder scheduling is not available. Please restart the bot."

def schedErrorMsg : String := "Error scheduling reminder"

def reminderSetMsg : String := "Reminder set!"

/-- Body of `/remind` after the admin check.  `jq` says whether
`context.job_queue` is available and `rof` whether the `run_once` call
raises; `raised = true` marks the uncaught exception when `parse_time`
itself raises.  On scheduling failure the just-appended reminder is removed
again with `list.remove` (first occurrence equal to it). -/
def remind_body (now uid chat : Int) (args : List String) (st : BotState)
    (jq rof : Bool) : CmdResult :=
  if args.length < 2 then ⟨st, [remindUsageMsg], 0, [], false⟩
  else
    let time_str := args.headD ""
    let message := joinSpace (args.drop 1)
    match parse_time time_str now with
    | .raised => ⟨st, [], 0, [], true⟩
    | .ok none => ⟨st, [invalidTimeFormatMsg], 0, [], false⟩
    | .ok (some remind_time) =>
      if remind_time ≤ now then ⟨st, [futureMsg], 0, [], false⟩
      else
        let delay := remind_time - now
        let rem : Reminder :=
          { user_id := uid, message := message, datetime := remind_time, chat_id := chat }
        let st1 : BotState := { st with reminders := st.reminders ++ [rem] }
        if jq = false then ⟨st1, [jqUnavailableMsg], 1, [], false⟩
        else if rof then
          ⟨{ st1 with reminders := st1.reminders.erase rem }, [schedErrorMsg], 2, [], false⟩
        else ⟨st1, [reminderSetMsg], 1, [(delay, rem)], false⟩

def noRemindersMsg : String := "You do not have any reminders set up."

def remindersHeaderMsg : String := "Your Reminders:"

/-- Body of `/reminders` after the admin check. -/
def reminders_body (uid : Int) (st : BotState) : CmdResult :=
  if st.reminders.filter (fun r => r.user_id == uid) = [] then
    ⟨st, [noRemindersMsg], 0, [], false⟩
  else ⟨st, [remindersHeaderMsg], 0, [], false⟩

def provideReminderNumberMsg : String := "Please provide the reminder number to delete"

def invalidReminderNumberMsg : String := "Invalid reminder number"

def deletedReminderMsg : String := "Deleted reminder"

/-- Body of `/deletereminder` after the admin check: index into the caller's
own reminders, remove the chosen one from the global list. -/
def delete_reminder_body (uid : Int) (args : List String) (st : BotState) : CmdResult :=
  match args with
  | [] => ⟨st, [provideReminderNumberMsg], 0, [], false⟩
  | a :: _ =>
    match a.toInt? with
    | none => ⟨st, [validNumberMsg], 0, [], false⟩
    | some n =>
      let ur := st.reminders.filter fun r => r.user_id == uid
      if n < 1 ∨ (ur.length : Int) < n then ⟨st, [invalidReminderNumberMsg], 0, [], false⟩
      else
        let r := ur.getD (n - 1).toNat { user_id := 0, message := "", datetime := 0, chat_id := 0 }
        ⟨{ st with reminders := st.reminders.erase r }, [deletedReminderMsg], 1, [], false⟩

/-- Embedding of `AutoResponderBot.add_response_command`: admin gate, then the
body. -/
def add_response_command (uid : Int) (args : List String) (st : BotState) : CmdResult :=
  if is_admin uid then add_response_body uid args st else permResult st

/-- Embedding of `AutoResponderBot.add_exact_response_command`. -/
def add_exact_response_command (uid : Int) (args : List String) (st : BotState) : CmdResult :=
  if is_admin uid then add_exact_response_body uid args st else permResult st

/-- Embedding of `AutoResponderBot.list_responses_command`. -/
def list_responses_command (uid : Int) (st : BotState) : CmdResult :=
  if is_admin uid then list_responses_body uid st else permResult st

/-- Embedding of `AutoResponderBot.delete_response_command`. -/
def delete_response_command (uid : Int) (args : List String) (st : BotState) : CmdResult :=
  if is_admin uid then delete_response_body uid args st else permResult st

/-- Embedding of `AutoResponderBot.toggle_response_command`. -/
def toggle_response_command (uid : Int) (args : List String) (st : BotState) : CmdResult :=
  if is_admin uid then toggle_response_body uid args st else permResult st

/-- Embedding of `AutoResponderBot.remind_command`. -/
def remind_command (now uid chat : Int) (args : List String) (st : BotState)
    (jq rof : Bool) : CmdResult :=
  if is_admin uid then remind_body now uid chat args st jq rof else permResult st

/-- Embedding of `AutoResponderBot.reminders_command`. -/
def reminders_command (uid : Int) (st : BotState) : CmdResult :=
  if is_admin uid then reminders_body uid st else permResult st

/-- Embedding of `AutoResponderBot.delete_reminder_command`. -/
def delete_reminder_command (uid : Int) (args : List String) (st : BotState) : CmdResult :=
  if is_admin uid then delete_reminder_body uid args st else permResult st

/-- Result of a fired reminder job: final state, `(chat_id, text)` messages
sent, `save_data` calls, and whether an exception escaped (never, because the
whole body sits in a catch-all `except`). -/
structure SendResult where
  state : BotState
  sent : List (Int × String)
  saves : Nat
  raised : Bool
deriving DecidableEq

/-- Text of a fired reminder message. -/
def reminderText (r : Reminder) : String := "Reminder: " ++ r.message

/-- Embedding of `AutoResponderBot.send_reminder`: send the reminder text to
its chat, then remove the reminder from the list only if it is still there.
`send_fails` models the gateway send call raising, which the surrounding
`except` swallows after nothing was sent. -/
def send_reminder (r : Reminder) (st : BotState) (send_fails : Bool) : SendResult :=
  if send_fails then ⟨st, [], 0, false⟩
  else if st.reminders.contains r then
    ⟨{ st with reminders := st.reminders.erase r }, [(r.chat_id, reminderText r)], 1, false⟩
  else ⟨st, [(r.chat_id, reminderText r)], 0, false⟩

example : handle_message [{ trigger := "hello", response := "hi" }] "well hello there" =
    some { trigger := "hello", response := "hi" } := by decide
example : handle_message [{ trigger := "Hello", response := "hi", exact_match := true }] "hello" =
    some { trigger := "Hello", response := "hi", exact_match := true } := by decide
example : handle_message
    [{ trigger := "Hello", response := "hi", exact_match := true, case_sensitive := true }]
    "hello" = none := by decide
example : handle_message
    [{ trigger := "a", response := "one", enabled := false }, { trigger := "a", response := "two" }]
    "abc" = some { trigger := "a", response := "two" } := by decide

lemma map_eq_self_of {α : Type} {f : α → α} {l : List α} (h : ∀ c ∈ l, f c = c) :
    l.map f = l := by
  induction l with
  | nil => rfl
  | cons c t ih =>
    simp only [List.map_cons, h c (List.mem_cons_self c t),
      ih fun x hx => h x (List.mem_cons_of_mem c hx)]

lemma lowerChar_of_digit {c : Char} (h : isDigitCh c = true) : lowerChar c = c := by
  have h' : 48 ≤ c.toNat ∧ c.toNat ≤ 57 := by
    simpa [isDigitCh] using h
  unfold lowerChar
  rw [if_neg (by omega)]

lemma isWsCh_of_digit {c : Char} (h : isDigitCh c = true) : isWsCh c = false := by
  have h' : 48 ≤ c.toNat ∧ c.toNat ≤ 57 := by
    simpa [isDigitCh] using h
  simp only [isWsCh, Bool.or_eq_false_iff, decide_eq_false_iff_not]
  omega

lemma dropWhile_eq_self_of_head_false {p : Char → Bool} {l : List Char}
    (h : ∀ c, l.head? = some c → p c = false) : l.dropWhile p = l := by
  cases l with
  | nil => rfl
  | cons c cs =>
    rw [List.dropWhile_cons, if_neg]
    simp [h c rfl]

lemma stripChars_eq_self_of_ends {l : List Char}
    (h1 : ∀ c, l.head? = some c → isWsCh c = false)
    (h2 : ∀ c, l.getLast? = some c → isWsCh c = false) :
    stripChars l = l := by
  unfold stripChars
  rw [dropWhile_eq_self_of_head_false h1]
  rw [dropWhile_eq_self_of_head_false, List.reverse_reverse]
  intro c hc
  apply h2
  rwa [← List.head?_reverse]

/-- C1.  The matcher scans the rule list in order, skips disabled rules,
lower-cases both sides unless `case_sensitive`, tests equality under
`exact_match` and substring containment otherwise, and replies with exactly
the first matching enabled rule (absence when none matches); the message
handler sends at most one reply per incoming message. -/
theorem matcher_first_enabled_match :
    (∀ (rules : List AutoResponse) (incoming : String),
      handle_message rules incoming = specFirstMatch rules incoming) ∧
    (∀ (st : BotState) (uid : Int) (text : String),
      (handle_update st uid text).length ≤ 1) := by
  have key : ∀ (rules : List AutoResponse) (incoming : String),
      handle_message rules incoming = specFirstMatch rules incoming := by
    intro rules incoming
    induction rules with
    | nil => rfl
    | cons r rest ih =>
      show (if r.enabled = false then handle_message rest incoming
            else if specRuleMatches r incoming then some r else handle_message rest incoming)
          = specFirstMatch (r :: rest) incoming
      unfold specFirstMatch
      rw [List.find?_cons]
      cases he : r.enabled with
      | false => simpa [he, specFirstMatch] using ih
      | true =>
        cases hm : specRuleMatches r incoming with
        | false => simpa [he, hm, specFirstMatch] using ih
        | true => simp [he, hm]
  refine ⟨key, ?_⟩
  intro st uid text
  unfold handle_update
  cases handle_message (getResponses st uid) text <;> simp

/-- C9.  The hard-coded admin list is empty, so the admin check refuses every
user id and each of the eight restricted commands replies with the fixed
permission-denied message and leaves the state untouched. -/
theorem admin_gate_denies_everyone :
    (∀ uid : Int, is_admin uid = false) ∧
    (∀ (uid : Int) (args : List String) (st : BotState),
      add_response_command uid args st = permResult st) ∧
    (∀ (uid : Int) (args : List String) (st : BotState),
      add_exact_response_command uid args st = permResult st) ∧
    (∀ (uid : Int) (st : BotState), list_responses_command uid st = permResult st) ∧
    (∀ (uid : Int) (args : List String) (st : BotState),
      delete_response_command uid args st = permResult st) ∧
    (∀ (uid : Int) (args : List String) (st : BotState),
      toggle_response_command uid args st = permResult st) ∧
    (∀ (now uid chat : Int) (args : List String) (st : BotState) (jq rof : Bool),
      remind_command now uid chat args st jq rof = permResult st) ∧
    (∀ (uid : Int) (st : BotState), reminders_command uid st = permResult st) ∧
    (∀ (uid : Int) (args : List String) (st : BotState),
      delete_reminder_command uid args st = permResult st) := by
  have h : ∀ uid : Int, is_admin uid = false := fun _ => rfl
  refine ⟨h, ?_, ?_, ?_, ?_, ?_, ?_, ?_, ?_⟩ <;>
    intros <;>
    simp [add_response_command, add_exact_response_command, list_responses_command,
      delete_response_command, toggle_response_command, remind_command, reminders_command,
      delete_reminder_command, h]

/-- C6.  A remind request whose parsed time is not in the future is rejected
with a user-visible message before any state mutation: same state, no save,
no job handed to the scheduler. -/
theorem remind_rejects_past (now uid chat : Int) (args : List String) (st : BotState)
    (jq rof : Bool) (t : Int)
    (hargs : 2 ≤ args.length)
    (hp : parse_time (args.headD "") now = .ok (some t))
    (hle : t ≤ now) :
    remind_body now uid chat args st jq rof = ⟨st, [futureMsg], 0, [], false⟩ := by
  unfold remind_body
  rw [if_neg (by omega)]
  simp only [hp]
  rw [if_pos hle]

theorem remind_rejects_past_witness :
    remind_body 1577836800000001 1 2 ["2020-01-01 00:00", "hi"] ⟨[], []⟩ true false =
      ⟨⟨[], []⟩, [futureMsg], 0, [], false⟩ :=
  remind_rejects_past 1577836800000001 1 2 ["2020-01-01 00:00", "hi"] ⟨[], []⟩ true false
    1577836800000000 (by decide) (by decide) (by decide)

/-- C10.  With a `|` present but an empty stripped trigger or response,
`/addresponse_exact`'s body still appends the (possibly empty-triggered)
exact-match rule and persists it, while `/addresponse`'s body rejects the
input with an error message and no state change: the two add commands
validate emptiness asymmetrically. -/
theorem add_commands_empty_asymmetry (uid : Int) (args : List String) (st : BotState)
    (h0 : ¬ args = [])
    (hbar : (joinSpace args).data.contains '|' = true)
    (hempty : stripChars (splitBar (joinSpace args).data).1 = [] ∨
      stripChars (splitBar (joinSpace args).data).2 = []) :
    add_exact_response_body uid args st =
      ⟨setResponses st uid (getResponses st uid ++
          [{ trigger := ⟨stripChars (splitBar (joinSpace args).data).1⟩,
             response := ⟨stripChars (splitBar (joinSpace args).data).2⟩,
             exact_match := true }]),
        [addedExactMsg], 1, [], false⟩ ∧
    add_response_body uid args st = ⟨st, [bothRequiredMsg], 0, [], false⟩ := by
  have hc2 : ¬ ((joinSpace args).data.contains '|' = false) := by
    rw [hbar]
    simp
  have hcond : (⟨stripChars (splitBar (joinSpace args).data).1⟩ : String) = "" ∨
      (⟨stripChars (splitBar (joinSpace args).data).2⟩ : String) = "" := by
    rcases hempty with h | h
    · exact Or.inl (by rw [h])
    · exact Or.inr (by rw [h])
  constructor
  · unfold add_exact_response_body
    rw [if_neg h0, if_neg hc2]
  · unfold add_response_body
    rw [if_neg h0, if_neg hc2, if_pos hcond]

theorem add_commands_empty_asymmetry_witness :
    add_exact_response_body 1 ["|", "x"] ⟨[], []⟩ =
      ⟨setResponses ⟨[], []⟩ 1 (getResponses ⟨[], []⟩ 1 ++
          [{ trigger := ⟨stripChars (splitBar (joinSpace ["|", "x"]).data).1⟩,
             response := ⟨stripChars (splitBar (joinSpace ["|", "x"]).data).2⟩,
             exact_match := true }]),
        [addedExactMsg], 1, [], false⟩ ∧
    add_response_body 1 ["|", "x"] ⟨[], []⟩ = ⟨⟨[], []⟩, [bothRequiredMsg], 0, [], false⟩ :=
  add_commands_empty_asymmetry 1 ["|", "x"] ⟨[], []⟩ (by decide) (by decide) (by decide)

/-- Reminder already present in the list in the C7 counterexample. -/
def remA : Reminder :=
  { user_id := 1, message := "hi", datetime := daysFromCivil 2030 1 1 * usPerDay, chat_id := 2 }

/-- A different reminder sitting after `remA` in the C7 counterexample. -/
def remB : Reminder :=
  { user_id := 1, message := "bye", datetime := daysFromCivil 2030 1 1 * usPerDay, chat_id := 2 }

/-- C7 counterexample.  When a reminder equal to the new one already sits in
the list ahead of another reminder, the rollback after a scheduling failure
removes the earlier duplicate, so the final list `[remB, remA]` differs from
the pre-request list `[remA, remB]`: the list is not restored to its previous
state. -/
theorem remind_rollback_not_exact :
    (remind_body 0 1 2 ["2030-01-01 00:00", "hi"] ⟨[], [remA, remB]⟩ true true).replies =
      [schedErrorMsg] ∧
    (remind_body 0 1 2 ["2030-01-01 00:00", "hi"] ⟨[], [remA, remB]⟩ true true).state.reminders =
      [remB, remA] ∧
    ¬ (remind_body 0 1 2 ["2030-01-01 00:00", "hi"] ⟨[], [remA, remB]⟩ true true).state.reminders =
      [remA, remB] := by decide

/-- C7 as amended.  When `run_once` raises, the just-appended reminder is
removed again (first equal occurrence), the user is told scheduling failed,
and — provided no identical reminder was already present — the reminder list
is restored exactly to its pre-request state. -/
theorem remind_rollback_on_sched_failure (now uid chat : Int) (args : List String)
    (st : BotState) (t : Int)
    (hargs : 2 ≤ args.length)
    (hp : parse_time (args.headD "") now = .ok (some t))
    (hlt : now < t)
    (hnd : ({ user_id := uid, message := joinSpace (args.drop 1), datetime := t,
              chat_id := chat } : Reminder) ∉ st.reminders) :
    remind_body now uid chat args st true true = ⟨st, [schedErrorMsg], 2, [], false⟩ := by
  unfold remind_body
  rw [if_neg (by omega)]
  simp only [hp]
  rw [if_neg (by omega)]
  have hnd' : ({ user_id := uid, message := joinSpace args.tail, datetime := t,
                 chat_id := chat } : Reminder) ∉ st.reminders := by
    simpa only [List.drop_one] using hnd
  have herase : (st.reminders ++ [({ user_id := uid, message := joinSpace args.tail,
                                     datetime := t, chat_id := chat } : Reminder)]).erase
        { user_id := uid, message := joinSpace args.tail, datetime := t, chat_id := chat } =
      st.reminders := by
    rw [List.erase_append_right _ hnd', List.erase_cons_head, List.append_nil]
  simp [herase]

theorem remind_rollback_on_sched_failure_witness :
    remind_body 0 1 2 ["2030-01-01 00:00", "hi"] ⟨[], []⟩ true true =
      ⟨⟨[], []⟩, [schedErrorMsg], 2, [], false⟩ :=
  remind_rollback_on_sched_failure 0 1 2 ["2030-01-01 00:00", "hi"] ⟨[], []⟩
    (daysFromCivil 2030 1 1 * usPerDay) (by decide) (by decide) (by decide) (by decide)

/-- Reminder used in the C8 counterexample; it is absent from the state. -/
def remC : Reminder := { user_id := 3, message := "ping", datetime := 5, chat_id := 7 }

/-- C8 counterexample.  A fired job whose reminder was already removed from
the list does NOT no-op: it still sends the reminder message (the membership
check only guards the removal, not the send). -/
theorem fired_job_still_sends :
    ¬ (send_reminder remC ⟨[], []⟩ false).sent = [] ∧
    (send_reminder remC ⟨[], []⟩ false).sent = [(7, reminderText remC)] ∧
    (send_reminder remC ⟨[], []⟩ false).state = ⟨[], []⟩ ∧
    (send_reminder remC ⟨[], []⟩ false).raised = false := by decide

/-- C8 as amended.  A fired job whose reminder is no longer in the list
raises nothing and leaves the reminder list unchanged, but it still sends
the reminder message; only the removal and save are skipped. -/
theorem fired_job_missing_reminder (r : Reminder) (st : BotState)
    (h : st.reminders.contains r = false) :
    send_reminder r st false = ⟨st, [(r.chat_id, reminderText r)], 0, false⟩ := by
  unfold send_reminder
  rw [if_neg (by simp), if_neg (by rw [h]; simp)]

theorem fired_job_missing_reminder_witness :
    send_reminder remC ⟨[], []⟩ false = ⟨⟨[], []⟩, [(remC.chat_id, reminderText remC)], 0, false⟩ :=
  fired_job_missing_reminder remC ⟨[], []⟩ (by decide)

lemma mem_of_head?_eq {α : Type} {l : List α} {c : α} (h : l.head? = some c) : c ∈ l := by
  cases l with
  | nil => cases h
  | cons a t =>
    rw [List.head?_cons] at h
    injection h with h
    rw [← h]
    exact List.mem_cons_self a t

lemma mem_of_getLast?_eq {α : Type} {l : List α} {c : α} (h : l.getLast? = some c) : c ∈ l := by
  rw [← List.head?_reverse] at h
  exact List.mem_reverse.mp (mem_of_head?_eq h)

/-- C2 counterexample.  The relative shorthand with count 1000000000 and unit
`d` does not return `now` plus 1000000000 days: the `timedelta` construction
overflows and `parse_time` raises instead of returning. -/
theorem relative_shorthand_overflow :
    ¬ parse_time "1000000000d" 0 = .ok (some (0 + (1000000000 : Int) * unitMicros 'd')) := by
  decide

/-- C2 as amended.  For a digit string denoting `n` followed by a unit in
`s`/`m`/`h`/`d`, `parse_time` returns `now` plus `n` of that unit, provided
the duration fits in a `timedelta` and the sum stays inside the representable
datetime range; outside those bounds the source raises `OverflowError`. -/
theorem relative_shorthand_adds (ds : List Char) (u : Char) (n : Nat) (now : Int)
    (hds : ¬ ds = []) (hdig : ds.all isDigitCh = true) (hn : digitsToNat ds = n)
    (hu : u = 's' ∨ u = 'm' ∨ u = 'h' ∨ u = 'd')
    (htd : tdLow ≤ (n : Int) * unitMicros u ∧ (n : Int) * unitMicros u ≤ tdHigh)
    (hdt : dtMin ≤ now + (n : Int) * unitMicros u ∧ now + (n : Int) * unitMicros u ≤ dtMax) :
    parse_time ⟨ds ++ [u]⟩ now = .ok (some (now + (n : Int) * unitMicros u)) := by
  have hdigs : ∀ c ∈ ds, isDigitCh c = true := List.all_eq_true.mp hdig
  have hulow : lowerChar u = u := by
    rcases hu with h | h | h | h <;> subst h <;> decide
  have huws : isWsCh u = false := by
    rcases hu with h | h | h | h <;> subst h <;> decide
  have hlow : lowerChars (ds ++ [u]) = ds ++ [u] := by
    apply map_eq_self_of
    intro c hc
    rcases List.mem_append.mp hc with h | h
    · exact lowerChar_of_digit (hdigs c h)
    · rw [List.mem_singleton.mp h]
      exact hulow
  have hstrip : stripChars (ds ++ [u]) = ds ++ [u] := by
    apply stripChars_eq_self_of_ends
    · intro c hc
      rcases List.exists_cons_of_ne_nil hds with ⟨d, ds', rfl⟩
      rw [List.cons_append, List.head?_cons] at hc
      injection hc with hc
      rw [← hc]
      exact isWsCh_of_digit (hdigs d (List.mem_cons_self d ds'))
    · intro c hc
      rw [List.getLast?_concat] at hc
      injection hc with hc
      rw [← hc]
      exact huws
  have hrel : relMatch (ds ++ [u]) = some (n, u) := by
    unfold relMatch
    rw [List.getLast?_concat]
    simp only [List.dropLast_concat]
    rw [if_pos ⟨hds, hdig, hu⟩, hn]
  have hdata : (⟨ds ++ [u]⟩ : String).data = ds ++ [u] := rfl
  have h1 : mkTimedelta ((n : Int) * unitMicros u) = some ((n : Int) * unitMicros u) := by
    unfold mkTimedelta
    rw [if_pos htd]
  have h2 : addTimedelta now ((n : Int) * unitMicros u) = some (now + (n : Int) * unitMicros u) := by
    unfold addTimedelta
    rw [if_pos hdt]
  unfold parse_time
  simp only [hdata, hlow, hstrip, hrel, h1, h2]

theorem relative_shorthand_adds_witness :
    parse_time ⟨['1', '0'] ++ ['s']⟩ 0 = .ok (some (0 + (10 : Int) * unitMicros 's')) :=
  relative_shorthand_adds ['1', '0'] 's' 10 0 (by decide) (by decide) (by decide)
    (Or.inl rfl) (by decide) (by decide)

/-- C5 counterexample.  `parse_time` is not exception-free: on the input
`1000000000d` the uncaught `OverflowError` from the `timedelta` construction
escapes, so the parser raises rather than returning absence or a value. -/
theorem parse_raises_on_overflow : parse_time "1000000000d" 0 = .raised := by decide

/-- C5 as amended.  For every input that matches none of the grammar rules —
no relative shorthand, no `tomorrow` start, none of the four absolute
formats — `parse_time` returns absence rather than raising; the only inputs
on which it raises are relative shorthands (or `tomorrow` forms) whose
result leaves the representable datetime or timedelta range. -/
theorem unmatched_input_returns_absence (s : String) (now : Int)
    (h1 : relMatch (stripChars (lowerChars s.data)) = none)
    (h2 : List.isPrefixOf "tomorrow".data (stripChars (lowerChars s.data)) = false)
    (h3 : (pyFormats.findSome? fun f => f (stripChars (lowerChars s.data))) = none) :
    parse_time s now = .ok none := by
  unfold parse_time
  simp only [h1, h2, h3, Bool.false_eq_true, if_false]

theorem unmatched_input_returns_absence_witness : parse_time "not-a-time" 0 = .ok none :=
  unmatched_input_returns_absence "not-a-time" 0 (by decide) (by decide) (by decide)

/-- Modelled from the spec's section 4.1 list of absolute formats, in the
spec's order: `YYYY-MM-DD HH:MM`, `YYYY-MM-DD HH:MM:SS`, `DD/MM/YYYY HH:MM`,
`DD-MM-YYYY HH:MM`, first exact parse wins. -/
def specAbsolute (cs : List Char) : Option Int :=
  [strpYmdHM, strpYmdHMS, strpDmySlashHM, strpDmyDashHM].findSome? fun f => f cs

/-- C4.  An input that is neither a relative shorthand nor a `tomorrow` form
is tried against the four absolute formats in the spec's order, the first
exact parse wins, and the result does not depend on `now`. -/
theorem absolute_formats_in_order (s : String) (now1 now2 : Int)
    (h1 : relMatch (stripChars (lowerChars s.data)) = none)
    (h2 : List.isPrefixOf "tomorrow".data (stripChars (lowerChars s.data)) = false) :
    parse_time s now1 = .ok (specAbsolute (stripChars (lowerChars s.data))) ∧
    parse_time s now1 = parse_time s now2 := by
  have key : ∀ now : Int,
      parse_time s now = .ok (specAbsolute (stripChars (lowerChars s.data))) := by
    intro now
    unfold parse_time specAbsolute pyFormats
    simp only [h1, h2, Bool.false_eq_true, if_false]
  exact ⟨key now1, (key now1).trans (key now2).symm⟩

theorem absolute_formats_in_order_witness :
    parse_time "2024-12-25 10:30" 0 =
      .ok (specAbsolute (stripChars (lowerChars ("2024-12-25 10:30" : String).data))) ∧
    parse_time "2024-12-25 10:30" 0 = parse_time "2024-12-25 10:30" 42 :=
  absolute_formats_in_order "2024-12-25 10:30" 0 42 (by decide) (by decide)

lemma tomorrow_replace_add (now : Int) :
    replaceTimeOfDay now 9 0 0 0 + usPerDay = (now / usPerDay + 1) * usPerDay + 9 * usPerHour := by
  unfold replaceTimeOfDay usPerDay usPerHour usPerMin usPerSec
  omega

lemma getLast?_append_ne_nil {α : Type} {l₁ l₂ : List α} (h : ¬ l₂ = []) :
    (l₁ ++ l₂).getLast? = l₂.getLast? := by
  rcases List.exists_cons_of_ne_nil h with ⟨x, xs, rfl⟩
  rw [← List.head?_reverse, ← List.head?_reverse, List.reverse_append]
  rcases List.exists_cons_of_ne_nil (l := (x :: xs).reverse) (by simp) with ⟨y, ys, hy⟩
  rw [hy, List.cons_append, List.head?_cons, List.head?_cons]

/-- C3.  `tomorrow` alone parses to the next calendar day at 09:00:00.000000;
`tomorrow <time>` takes the portion after position 8, strips it, reads it
first as `%I%p` and then as `%H:%M`, keeps the 09:00 default when both fail,
and keeps seconds and sub-seconds zeroed in every case. -/
theorem tomorrow_forms (now : Int) (tp : List Char)
    (hlow : ∀ c ∈ tp, lowerChar c = c)
    (hws : ∀ c ∈ tp, isWsCh c = false)
    (hb : dtMin ≤ (now / usPerDay + 1) * usPerDay + 9 * usPerHour ∧
      (now / usPerDay + 1) * usPerDay + 9 * usPerHour ≤ dtMax) :
    parse_time "tomorrow" now = .ok (some ((now / usPerDay + 1) * usPerDay + 9 * usPerHour)) ∧
    (¬ tp = [] →
      parse_time ⟨"tomorrow ".data ++ tp⟩ now = .ok (some
        (match structIp tp with
         | some h => (now / usPerDay + 1) * usPerDay + (h : Int) * usPerHour
         | none =>
           match parseHMEnd tp with
           | some hm => (now / usPerDay + 1) * usPerDay + (hm.1 : Int) * usPerHour +
               (hm.2 : Int) * usPerMin
           | none => (now / usPerDay + 1) * usPerDay + 9 * usPerHour))) := by
  have hadd : addTimedelta (replaceTimeOfDay now 9 0 0 0) usPerDay =
      some ((now / usPerDay + 1) * usPerDay + 9 * usPerHour) := by
    unfold addTimedelta
    rw [tomorrow_replace_add, if_pos hb]
  constructor
  · have h1 : stripChars (lowerChars ("tomorrow" : String).data) = "tomorrow".data := by decide
    have h2 : relMatch "tomorrow".data = none := by decide
    have h3 : List.isPrefixOf "tomorrow".data "tomorrow".data = true := by decide
    have h4 : ¬ (8 < ("tomorrow".data).length) := by decide
    unfold parse_time
    simp only [h1, h2, h3, if_true, hadd]
    rw [if_neg h4]
  · intro hne
    have hdata : (⟨"tomorrow ".data ++ tp⟩ : String).data = "tomorrow ".data ++ tp := rfl
    have hlowfix : List.map lowerChar ("tomorrow ".data) = "tomorrow ".data := by decide
    have hlowfull : lowerChars ("tomorrow ".data ++ tp) = "tomorrow ".data ++ tp := by
      unfold lowerChars
      rw [List.map_append, hlowfix, map_eq_self_of hlow]
    have hstripfull : stripChars ("tomorrow ".data ++ tp) = "tomorrow ".data ++ tp := by
      apply stripChars_eq_self_of_ends
      · intro c hc
        have he : ("tomorrow ".data ++ tp).head? = some 't' := rfl
        rw [he] at hc
        injection hc with hc
        rw [← hc]
        decide
      · intro c hc
        rw [getLast?_append_ne_nil hne] at hc
        exact hws c (mem_of_getLast?_eq hc)
    have halldrop : (("tomorrow ".data ++ tp).dropLast).all isDigitCh = false := by
      have hshape : "tomorrow ".data ++ tp = 't' :: ('o' :: ("morrow ".data ++ tp)) := rfl
      rw [hshape, List.dropLast_cons₂, List.all_cons]
      rw [show isDigitCh 't' = false from by decide]
      rfl
    have hrel : relMatch ("tomorrow ".data ++ tp) = none := by
      unfold relMatch
      cases hgl : ("tomorrow ".data ++ tp).getLast? with
      | none => rfl
      | some u =>
        simp only []
        rw [if_neg]
        intro hcond
        have := hcond.2.1
        rw [halldrop] at this
        cases this
    have hpre : List.isPrefixOf "tomorrow".data ("tomorrow ".data ++ tp) = true := rfl
    have hlen : 8 < ("tomorrow ".data ++ tp).length := by
      rw [List.length_append]
      have h9 : ("tomorrow ".data).length = 9 := rfl
      omega
    have hdrop : ("tomorrow ".data ++ tp).drop 9 = tp := by
      have h9 : (9 : Nat) = ("tomorrow ".data).length := rfl
      rw [h9, List.drop_left]
    have hstrip_tp : stripChars tp = tp := by
      apply stripChars_eq_self_of_ends
      · intro c hc
        exact hws c (mem_of_head?_eq hc)
      · intro c hc
        exact hws c (mem_of_getLast?_eq hc)
    unfold parse_time
    simp only [hdata, hlowfull, hstripfull, hrel, hpre, if_true, hadd]
    rw [if_pos hlen]
    simp only [hdrop, hstrip_tp]
    cases hsi : structIp tp with
    | some h =>
      simp only [hsi]
      have hr : replaceHM ((now / usPerDay + 1) * usPerDay + 9 * usPerHour) (h : Int) 0 =
          (now / usPerDay + 1) * usPerDay + (h : Int) * usPerHour := by
        unfold replaceHM usPerDay usPerHour usPerMin
        omega
      rw [hr]
    | none =>
      simp only [hsi]
      cases hpm : parseHMEnd tp with
      | some hm =>
        simp only [hpm]
        have hr : replaceHM ((now / usPerDay + 1) * usPerDay + 9 * usPerHour)
            (hm.1 : Int) (hm.2 : Int) =
            (now / usPerDay + 1) * usPerDay + (hm.1 : Int) * usPerHour +
              (hm.2 : Int) * usPerMin := by
          unfold replaceHM usPerDay usPerHour usPerMin
          omega
        rw [hr]
      | none =>
        simp only [hpm]

theorem tomorrow_forms_witness :
    parse_time "tomorrow" 0 =
      .ok (some (((0 : Int) / usPerDay + 1) * usPerDay + 9 * usPerHour)) ∧
    parse_time ⟨"tomorrow ".data ++ "14:30".data⟩ 0 = .ok (some
      (match structIp "14:30".data with
       | some h => ((0 : Int) / usPerDay + 1) * usPerDay + (h : Int) * usPerHour
       | none =>
         match parseHMEnd "14:30".data with
         | some hm => ((0 : Int) / usPerDay + 1) * usPerDay + (hm.1 : Int) * usPerHour +
             (hm.2 : Int) * usPerMin
         | none => ((0 : Int) / usPerDay + 1) * usPerDay + 9 * usPerHour)) := by
  have h := tomorrow_forms 0 ("14:30".data) (by decide) (by decide) (by decide)
  exact ⟨h.1, h.2 (by decide)⟩
